import Mathlib

/-!
# Verification of the PRAG-AI retrieval/RAG core

Shallow embedding of the core pipeline of the repository
(`backend/app/services/chunking_service.py`, `ollama_service.py`,
`qdrant_service.py`, `ingestion_service.py`, `backend/app/api/rag.py`,
`backend/app/api/query.py`) together with proofs and refutations of the
specification's testable properties.

Texts are modelled as `List Char`, Python dicts as insertion-ordered
association lists, floating-point scores as rationals (no claim inspects
their numeric value), and the stream of `uuid.uuid4()` draws as an
explicit supply of identifier strings.
-/

namespace PragAI

/-! ## Python slicing

`text[s:e]` for `int` indices, as Python defines it: negative indices
count from the end, out-of-range indices clamp. -/

/-- Normalize one Python slice index against a list of length `len`. -/
def pyIdx (len : ℕ) (i : ℤ) : ℕ :=
  if i < 0 then ((len : ℤ) + i).toNat else min i.toNat len

/-- `t[s:e]` with Python slice semantics. -/
def pySlice (t : List Char) (s e : ℤ) : List Char :=
  (t.take (pyIdx t.length e)).drop (pyIdx t.length s)

/-! ## Chunker (`ChunkingService._chunk_by_characters`)

The Python `while` loop is embedded with explicit fuel; the source loop is

```
while start < len(text):
    end = start + self.chunk_size
    chunks.append(text[start:end])
    start += (self.chunk_size - self.overlap)
    if end >= len(text):
        break
```

`start` is an integer (it can go negative in Python when
`overlap > chunk_size`), so the accumulator position is `ℤ`. -/

/-- One-to-one embedding of the chunking loop of
`ChunkingService._chunk_by_characters` (the append-then-break of the
source is expanded into the two branches of the break test); returns
`none` on fuel exhaustion (the Python loop not having terminated within
`fuel` iterations). -/
def chunkLoop (size overlap : ℕ) (t : List Char) :
    ℤ → List (List Char) → ℕ → Option (List (List Char))
  | _, _, 0 => none
  | start, acc, fuel + 1 =>
    if start < (t.length : ℤ) then
      if (t.length : ℤ) ≤ start + (size : ℤ) then
        some (acc ++ [pySlice t start (start + (size : ℤ))])
      else
        chunkLoop size overlap t (start + ((size : ℤ) - (overlap : ℤ)))
          (acc ++ [pySlice t start (start + (size : ℤ))]) fuel
    else some acc

/-- `ChunkingService._chunk_by_characters(text)` with configuration
`(chunk_size, overlap)`: texts no longer than `size` are returned whole,
otherwise the sliding-window loop runs (with fuel). -/
def chunk_by_characters (size overlap : ℕ) (t : List Char) (fuel : ℕ) :
    Option (List (List Char)) :=
  if t.length ≤ size then some [t] else chunkLoop size overlap t 0 [] fuel

/-- Reassembly of a chunk list: the first chunk followed by each later
chunk minus its first `overlap` characters.  Equality with the original
text expresses gap-free coverage with `overlap`-character overlaps. -/
def glue (overlap : ℕ) : List (List Char) → List Char
  | [] => []
  | c :: cs => c ++ (cs.map (List.drop overlap)).flatten

/-- Every two consecutive chunks share exactly `overlap` characters: the
last `overlap` characters of each chunk equal the first `overlap`
characters of the next. -/
def chainShare (overlap : ℕ) : List (List Char) → Bool
  | [] => true
  | [_] => true
  | c :: c' :: rest =>
    (c.drop (c.length - overlap) == c'.take overlap) && chainShare overlap (c' :: rest)

/-! ## Data model (`backend/app/models/paper.py`, Qdrant payloads) -/

/-- Payload values: Qdrant payloads are JSON-like; the system stores
strings, an integer page number, and a string-keyed metadata map. -/
inductive PVal
  | s (v : String)
  | i (v : ℤ)
  | d (v : List (String × String))
deriving DecidableEq, Repr

/-- `ChunkType` enum of `models/paper.py`. -/
inductive ChunkType
  | abstract
  | body
  | table
  | figure_caption
deriving DecidableEq, Repr

/-- The `.value` of a `ChunkType` member. -/
def ChunkType.value : ChunkType → String
  | .abstract => "abstract"
  | .body => "body"
  | .table => "table"
  | .figure_caption => "figure_caption"

/-- `Chunk` model of `models/paper.py`. -/
structure Chunk where
  paper_id : String
  unique_id : String
  chunk_text : String
  chunk_type : ChunkType
  page_number : ℤ
  metadata : Option (List (String × String))
deriving DecidableEq, Repr

/-- A sparse embedding dict: `{"indices": [...], "values": [...]}`. -/
structure SparseVec where
  indices : List ℕ
  values : List ℚ
deriving DecidableEq, Repr

/-- Vector data of a stored point: named (`dense` plus optional
`sparse`) or unnamed legacy config. -/
inductive VecData
  | named (dense : List ℚ) (sparse : Option SparseVec)
  | unnamed (dense : List ℚ)
deriving DecidableEq, Repr

/-- A stored Qdrant point. -/
structure Point where
  id : String
  vector : VecData
  payload : List (String × PVal)
deriving DecidableEq, Repr

/-- A search hit: point payload plus similarity score (scores are
floats in the source; no claim inspects their numeric value, so they
are embedded as rationals). -/
structure ScoredPoint where
  id : String
  score : ℚ
  payload : List (String × PVal)
deriving DecidableEq, Repr

/-! ## Python dicts as insertion-ordered association lists -/

/-- Python dict read `m.get(k)` / `m[k]`. -/
def dictGet {α : Type} (m : List (String × α)) (k : String) : Option α :=
  (m.find? (fun kv => kv.1 == k)).map Prod.snd

/-- Python dict assignment `m[k] = v`: update in place when the key
exists (insertion order preserved), else append. -/
def dictSet {α : Type} (m : List (String × α)) (k : String) (v : α) : List (String × α) :=
  if m.any (fun kv => kv.1 == k) then
    m.map (fun kv => if kv.1 == k then (k, v) else kv)
  else m ++ [(k, v)]

/-! ## Vector Index Adapter write path (`QdrantService.upsert_chunks`) -/

/-- The payload dict `upsert_chunks` writes for one chunk.  Python's
`chunk.metadata or {}` yields `{}` both when `metadata` is `None` and
when it is an empty dict, which coincides with `Option.getD []`. -/
def chunkPayload (c : Chunk) : List (String × PVal) :=
  [("paper_id", .s c.paper_id),
   ("unique_id", .s c.unique_id),
   ("chunk_text", .s c.chunk_text),
   ("chunk_type", .s c.chunk_type.value),
   ("page_number", .i c.page_number),
   ("metadata", .d (c.metadata.getD []))]

/-- The point built for index `i` of `enumerate(zip(chunks, vectors))`.
`ids` is the explicit supply standing for the successive
`str(uuid.uuid4())` draws.  `sparse_vectors and i < len(sparse_vectors)`
(empty list falsy) is exactly `svs.get? i` being `some`. -/
def mkUpsertPoint (named : Bool) (sparse_vectors : Option (List SparseVec))
    (ids : List String) (i : ℕ) (cv : Chunk × List ℚ) : Point :=
  { id := ids.getD i "",
    vector :=
      if named then
        VecData.named cv.2
          (match sparse_vectors with
           | some svs => svs.get? i
           | none => none)
      else VecData.unnamed cv.2,
    payload := chunkPayload cv.1 }

/-- The `for i, (chunk, vector) in enumerate(zip(chunks, vectors))`
loop of `upsert_chunks`, building the point list. -/
def upsertPointsAux (named : Bool) (sparse_vectors : Option (List SparseVec))
    (ids : List String) : ℕ → List (Chunk × List ℚ) → List Point
  | _, [] => []
  | i, cv :: rest =>
    mkUpsertPoint named sparse_vectors ids i cv ::
      upsertPointsAux named sparse_vectors ids (i + 1) rest

/-- The points constructed by `QdrantService.upsert_chunks`. -/
def upsertPoints (named : Bool) (chunks : List Chunk) (vectors : List (List ℚ))
    (sparse_vectors : Option (List SparseVec)) (ids : List String) : List Point :=
  upsertPointsAux named sparse_vectors ids 0 (chunks.zip vectors)

/-- Modelled from the spec: the vector-index collaborator's `upsert`
(the `qdrant_client` backend, external to the repository) — points are
keyed by id, an existing point with the same id is overwritten, a new
id is appended. -/
def clientUpsert (store : List Point) (points : List Point) : List Point :=
  points.foldl
    (fun s p =>
      if s.any (fun q => q.id == p.id) then
        s.map (fun q => if q.id == p.id then p else q)
      else s ++ [p])
    store

/-- `QdrantService.upsert_chunks` acting on an abstract store. -/
def upsert_chunks (named : Bool) (chunks : List Chunk) (vectors : List (List ℚ))
    (sparse_vectors : Option (List SparseVec)) (ids : List String)
    (store : List Point) : List Point :=
  clientUpsert store (upsertPoints named chunks vectors sparse_vectors ids)

/-! ## RAG read path (`backend/app/api/rag.py`) -/

/-- One formatted search result as built by the `rag_query` loop
(`query_collection` builds the identical record with the same payload
keys). -/
structure RResult where
  chunk_text : String
  paper_id : String
  unique_id : String
  chunk_type : String
  page_number : ℤ
  score : ℚ
  metadata : List (String × String)
deriving DecidableEq, Repr

/-- Per-result formatting: `result.payload["chunk_text"]` etc. are
direct key accesses (missing key = `KeyError`, modelled as `none`);
`metadata` uses `payload.get("metadata", {})`. -/
def formatResult (score : ℚ) (payload : List (String × PVal)) : Option RResult :=
  match dictGet payload "chunk_text", dictGet payload "paper_id",
    dictGet payload "unique_id", dictGet payload "chunk_type",
    dictGet payload "page_number" with
  | some (.s ct), some (.s pid), some (.s uid), some (.s cty), some (.i pn) =>
    some { chunk_text := ct, paper_id := pid, unique_id := uid, chunk_type := cty,
           page_number := pn, score := score,
           metadata :=
             match dictGet payload "metadata" with
             | some (.d m) => m
             | _ => [] }
  | _, _, _, _, _ => none

/-- The `RResult` a payload written by `chunkPayload` reads back as. -/
def chunkResult (score : ℚ) (c : Chunk) : RResult :=
  { chunk_text := c.chunk_text, paper_id := c.paper_id, unique_id := c.unique_id,
    chunk_type := c.chunk_type.value, page_number := c.page_number, score := score,
    metadata := c.metadata.getD [] }

/-- The result-formatting loop of `rag_query`: builds the `results`
list and the `paper_citation_keys` dict (`paper_id → unique_id`). -/
def processResults : List ScoredPoint → List RResult → List (String × String) →
    Option (List RResult × List (String × String))
  | [], acc, keys => some (acc, keys)
  | p :: rest, acc, keys =>
    match formatResult p.score p.payload with
    | none => none
    | some r => processResults rest (acc ++ [r]) (dictSet keys r.paper_id r.unique_id)

/-- Code-point lexicographic comparison on character lists (the string
order Python's `sorted` uses). -/
def charsLe : List Char → List Char → Bool
  | [], _ => true
  | _ :: _, [] => false
  | x :: xs, y :: ys =>
    if x.toNat < y.toNat then true
    else if y.toNat < x.toNat then false
    else charsLe xs ys

/-- Lexicographic `≤` on strings. -/
def strLe (a b : String) : Bool := charsLe a.toList b.toList

/-- Insertion into a sorted list of strings. -/
def insertSorted (x : String) : List String → List String
  | [] => [x]
  | y :: ys => if strLe x y then x :: y :: ys else y :: insertSorted x ys

/-- Python `sorted` on strings (insertion sort). -/
def sortStrings (l : List String) : List String := l.foldr insertSorted []

/-- `valid_keys = sorted(set(paper_citation_keys.values()))` — the
citation keys the prompt advertises as the only valid ones. -/
def validKeys (keys : List (String × String)) : List String :=
  sortStrings ((keys.map Prod.snd).dedup)

/-- The citation key a result is tagged with in the prompt context:
Python `r["unique_id"] or r["paper_id"]` (empty string is falsy). -/
def citationKey (r : RResult) : String :=
  if r.unique_id = "" then r.paper_id else r.unique_id

/-- `CANNOT_ANSWER_PHRASE` of `rag.py`. -/
def CANNOT_ANSWER_PHRASE : String := "Sorry, I do not know the answer for this"

/-- Case-already-folded substring test (Python `needle in hay`). -/
def strContainsSub (hay needle : String) : Bool :=
  (List.range (hay.toList.length + 1)).any
    (fun i => needle.toList.isPrefixOf (hay.toList.drop i))

/-- The excerpt context block: each chunk tagged with its citation key,
its text run through `_clean_context` (abstracted as `clean` — no claim
depends on the regex details). -/
def ragContext (clean : String → String) (results : List RResult) : String :=
  String.intercalate "\n\n" (results.map (fun r =>
    "--- Source: [" ++ citationKey r ++ "] ---\n" ++ clean r.chunk_text))

/-- The generation prompt of `rag_query`. -/
def ragPrompt (query : String) (wordTarget : ℤ) (context : String)
    (vks : List String) : String :=
  "You are a research assistant. Answer the question using ONLY the excerpts below.\n\n" ++
  "CITATION RULES:\n" ++
  "- The ONLY valid citation keys are: " ++
    String.intercalate ", " (vks.map (fun k => "[" ++ k ++ "]")) ++ "\n" ++
  "- Cite by placing the key in square brackets, e.g. " ++
    (match vks with
     | [] => "[AuthorTitle2024]"
     | k :: _ => "[" ++ k ++ "]") ++ "\n" ++
  "- Do NOT invent citation keys. Do NOT cite numbered references from within the text (e.g. [1], [2]).\n" ++
  "- Only use the keys listed above.\n\n" ++
  "Answer based solely on the provided excerpts, not on prior knowledge.\n" ++
  "Aim for approximately " ++ toString wordTarget ++ " words.\n" ++
  "If the excerpts do not contain enough information, reply with: \"" ++
    CANNOT_ANSWER_PHRASE ++ "\"\n\n" ++
  "Question: " ++ query ++ "\n\nExcerpts:\n" ++ context ++ "\n\nAnswer:"

/-- The answer section of `rag_query`: `answer = ""`, and only `if
results:` is the prompt built, `ollama.generate` called (recorded by
the Bool) and the refusal phrase rewritten. -/
def ragAnswer (gen : String → String) (clean : String → String)
    (query : String) (wordTarget : ℤ) (results : List RResult)
    (vks : List String) : String × Bool :=
  if results.isEmpty then ("", false)
  else
    let answer := gen (ragPrompt query wordTarget (ragContext clean results) vks)
    if strContainsSub answer.toLower CANNOT_ANSWER_PHRASE.toLower then
      ("The retrieved passages do not contain enough information to answer this question. Try broadening your query or selecting different papers.",
        true)
    else (answer, true)

/-- `PaperMetadata` as used by the citation block. -/
structure PaperMeta where
  unique_id : String
  title : String
  authors : List String
  year : Option ℤ
deriving DecidableEq, Repr

/-- One entry of the returned `citations` map. -/
structure CitRecord where
  unique_id : String
  title : String
  authors : List String
  year : Option ℤ
  apa : String
  bibtex : String
deriving DecidableEq, Repr

/-- `paper_metadata_map`: metadata looked up for every paper id in
`paper_citation_keys`, keeping only the hits. -/
def paperMetadataMap (metaLookup : String → Option PaperMeta)
    (keys : List (String × String)) : List (String × PaperMeta) :=
  keys.foldl
    (fun m kv =>
      match metaLookup kv.1 with
      | some meta => dictSet m kv.1 meta
      | none => m)
    []

/-- The `citations` dict built by `rag_query`: one entry per
`(paper_id, unique_id)` of `paper_citation_keys` whose metadata
resolved; keyed by `unique_id`. -/
def ragCitations (metaLookup : String → Option PaperMeta)
    (formatApa formatBibtex : PaperMeta → String)
    (keys : List (String × String)) : List (String × CitRecord) :=
  keys.foldl
    (fun cits kv =>
      match dictGet (paperMetadataMap metaLookup keys) kv.1 with
      | some meta =>
        dictSet cits kv.2
          { unique_id := meta.unique_id, title := meta.title,
            authors := meta.authors, year := meta.year,
            apa := formatApa meta, bibtex := formatBibtex meta }
      | none => cits)
    []

/-- The response of `rag_query`. -/
structure RagResponse where
  answer : String
  results : List RResult
  citations : List (String × CitRecord)
  generateCalled : Bool
deriving DecidableEq, Repr

/-- Everything `rag_query` does after the search call: format results,
collect citation keys, generate (or skip) the answer, build citations.
`gen` stands for `ollama.generate`, `clean` for `_clean_context`,
`metaLookup` for `metadata_service.get_paper_metadata`,
`formatApa`/`formatBibtex` for `CitationService` (pure formatting, a
spec non-goal). -/
def rag_query_post (pts : List ScoredPoint) (gen clean : String → String)
    (metaLookup : String → Option PaperMeta)
    (formatApa formatBibtex : PaperMeta → String)
    (query : String) (wordTarget : ℤ) : Option RagResponse :=
  match processResults pts [] [] with
  | none => none
  | some (results, keys) =>
    let ans := ragAnswer gen clean query wordTarget results (validKeys keys)
    some { answer := ans.1, results := results,
           citations := ragCitations metaLookup formatApa formatBibtex keys,
           generateCalled := ans.2 }

/-! ## Hybrid-search decision (`rag.py` lines 80–95,
`QdrantService.search`) -/

/-- Lines 80–86 of `rag.py`: the sparse query embedding is computed and
`use_hybrid` set exactly when the request asks for hybrid **and** the
collection record's `search_type` is `"hybrid"`. -/
def ragSparseDecision (useHybridReq : Bool) (searchType : String)
    (sparseEmbed : SparseVec) : Option SparseVec × Bool :=
  if useHybridReq && (searchType == "hybrid") then (some sparseEmbed, true)
  else (none, false)

/-- Which query the `QdrantService.search` branch issues. -/
inductive SearchMode
  | fusion
  | denseNamed
  | denseUnnamed
deriving DecidableEq, Repr

/-- The branch selection of `QdrantService.search`: RRF fusion when
`use_hybrid` is set, the collection has a sparse schema, and a sparse
query vector was supplied (a `{"indices": .., "values": ..}` dict is
always truthy, so Python truthiness is `Option.isSome`); otherwise a
plain dense query (named or unnamed). -/
def searchMode (use_hybrid : Bool) (hasSparse : Bool)
    (sparse_vector : Option SparseVec) (named : Bool) : SearchMode :=
  if use_hybrid && hasSparse && sparse_vector.isSome then .fusion
  else if named then .denseNamed
  else .denseUnnamed

/-! ## Endpoint preludes (`rag.py` lines 68–78, `query.py` lines 44–54) -/

/-- FastAPI `HTTPException`s raised by the two endpoints: 400 and 404. -/
inductive ApiError
  | badRequest (detail : String)
  | notFound (detail : String)
deriving DecidableEq, Repr

/-- Observable backend calls of the pipelines. -/
inductive BackendCall
  | embedCall
  | sparseCall
  | searchCall
  | generateCall
deriving DecidableEq, Repr

/-- The collection record as far as the preludes consult it. -/
structure CollectionInfo where
  collection_id : String
  name : String
  search_type : String
deriving DecidableEq, Repr

/-- Python `str.strip()`: remove leading and trailing whitespace. -/
def pyStrip (s : String) : String :=
  String.mk (((s.toList.dropWhile Char.isWhitespace).reverse.dropWhile
    Char.isWhitespace).reverse)

/-- The validation prefix of `rag_query`: reject empty or
whitespace-only query text first, then the missing collection; the
dense query-embedding call is issued only after both checks pass.
Returns the error (if any) and the backend calls made up to and
including the query-embedding call. -/
def ragPrelude (queryText : String) (collection : Option CollectionInfo) :
    Option ApiError × List BackendCall :=
  if queryText = "" ∨ pyStrip queryText = "" then
    (some (.badRequest "Query text cannot be empty"), [])
  else
    match collection with
    | none => (some (.notFound "Collection not found"), [])
    | some _ => (none, [BackendCall.embedCall])

/-- The identical validation prefix of `query_collection`. -/
def queryPrelude (queryText : String) (collection : Option CollectionInfo) :
    Option ApiError × List BackendCall :=
  if queryText = "" ∨ pyStrip queryText = "" then
    (some (.badRequest "Query text cannot be empty"), [])
  else
    match collection with
    | none => (some (.notFound "Collection not found"), [])
    | some _ => (none, [BackendCall.embedCall])

/-! ## Embedding Gateway (`OllamaService.generate_embeddings_batch`) -/

/-- `generate_embeddings_batch`: a loop appending one
`generate_embedding` result per text, in order. -/
def generate_embeddings_batch (embed : String → List ℚ) (texts : List String) :
    List (List ℚ) :=
  texts.foldl (fun acc t => acc ++ [embed t]) []

/-! ## Concrete inputs for counterexamples and witnesses -/

/-- Three retrieved points: one whose stored `unique_id` is empty, and
two sharing `paper_id` `"q"` under different `unique_id`s (reachable by
re-ingesting the same file after its metadata changed: `upsert_chunks`
assigns fresh point ids and deletes nothing). -/
def cexPts : List ScoredPoint :=
  [{ id := "a", score := 1, payload := chunkPayload ⟨"p", "", "t1", .body, 1, none⟩ },
   { id := "b", score := 1, payload := chunkPayload ⟨"q", "K", "t2", .body, 1, none⟩ },
   { id := "c", score := 1, payload := chunkPayload ⟨"q", "L", "t3", .body, 1, none⟩ }]

/-- Well-behaved retrieved points: every `unique_id` nonempty, same
paper always under the same `unique_id`. -/
def wPts : List ScoredPoint :=
  [{ id := "a", score := 1, payload := chunkPayload ⟨"p1", "Smith2020", "t1", .body, 1, none⟩ },
   { id := "b", score := 1, payload := chunkPayload ⟨"p2", "Jones2021", "t2", .body, 1, none⟩ },
   { id := "c", score := 1, payload := chunkPayload ⟨"p1", "Smith2020", "t3", .body, 1, none⟩ }]

/-! ### Chunker lemmas -/

lemma pyIdx_natCast (len a : ℕ) : pyIdx len (a : ℤ) = min a len := by
  rw [pyIdx, if_neg (by omega)]
  simp

lemma pySlice_natCast (t : List Char) (a b : ℕ) :
    pySlice t (a : ℤ) (b : ℤ) = (t.take (min b t.length)).drop (min a t.length) := by
  rw [pySlice, pyIdx_natCast, pyIdx_natCast]

/-- The window `text[start:start+size]` at an in-range natural start. -/
lemma pySlice_window (t : List Char) (n size : ℕ) (hn : n ≤ t.length) :
    pySlice t (n : ℤ) ((n : ℤ) + (size : ℤ)) = (t.drop n).take size := by
  have hcast : ((n : ℤ) + (size : ℤ)) = ((n + size : ℕ) : ℤ) := by push_cast; ring
  rw [hcast, pySlice_natCast, min_eq_left hn]
  rcases le_or_lt (n + size) t.length with h | h
  · rw [min_eq_left h, List.drop_take]
    congr 1
    omega
  · rw [min_eq_right h.le, List.take_length,
      List.take_of_length_le (by rw [List.length_drop]; omega)]

/-- Invariant of the sliding-window loop for a valid configuration
(`overlap < size`): given enough fuel it terminates, its output covers
the tail `t.drop n` gap-free, all chunks but the last have length
exactly `size`, and consecutive chunks share exactly `overlap`
characters. -/
lemma chunkLoop_spec (size overlap : ℕ) (t : List Char) (hov : overlap < size) :
    ∀ fuel n acc, n < t.length → t.length - n ≤ fuel →
    ∃ tl, chunkLoop size overlap t (n : ℤ) acc fuel
        = some (acc ++ ((t.drop n).take size) :: tl) ∧
      glue overlap (((t.drop n).take size) :: tl) = t.drop n ∧
      (∀ c ∈ (((t.drop n).take size) :: tl).dropLast, c.length = size) ∧
      chainShare overlap (((t.drop n).take size) :: tl) = true := by
  intro fuel
  induction fuel with
  | zero => intro n acc h1 h2; omega
  | succ fuel ih =>
    intro n acc h1 h2
    rw [chunkLoop, if_pos (by exact_mod_cast h1)]
    by_cases hle : t.length ≤ n + size
    · rw [if_pos (by exact_mod_cast hle)]
      have hwin : pySlice t (n : ℤ) ((n : ℤ) + (size : ℤ)) = (t.drop n).take size :=
        pySlice_window t n size h1.le
      refine ⟨[], by rw [hwin], ?_, by simp, rfl⟩
      rw [glue]
      simp [List.take_of_length_le (show (t.drop n).length ≤ size by rw [List.length_drop]; omega)]
    · push_neg at hle
      rw [if_neg (by simp only [not_le]; exact_mod_cast hle)]
      have hstep : (n : ℤ) + ((size : ℤ) - (overlap : ℤ)) = ((n + (size - overlap) : ℕ) : ℤ) := by
        push_cast [Nat.cast_sub hov.le]
        ring
      rw [hstep]
      set n' := n + (size - overlap) with hn'
      have h1' : n' < t.length := by omega
      have h2' : t.length - n' ≤ fuel := by omega
      have hwin : pySlice t (n : ℤ) ((n : ℤ) + (size : ℤ)) = (t.drop n).take size :=
        pySlice_window t n size h1.le
      obtain ⟨tl, heq, hglue, hlen, hshare⟩ := ih n' (acc ++ [pySlice t (n : ℤ) ((n : ℤ) + (size : ℤ))]) h1' h2'
      have hclen : ((t.drop n).take size).length = size := by
        rw [List.length_take, List.length_drop]
        omega
      have hc'head : (t.drop n').take size = (t.drop n').take size := rfl
      have hc'len : overlap ≤ ((t.drop n').take size).length := by
        rw [List.length_take, List.length_drop]
        omega
      refine ⟨(t.drop n').take size :: tl, ?_, ?_, ?_, ?_⟩
      · rw [heq, hwin, List.append_assoc]
        rfl
      · rw [glue] at hglue ⊢
        rw [List.map_cons, List.flatten_cons,
          ← List.drop_append_of_le_length hc'len, hglue]
        rw [List.drop_drop]
        rw [(by omega : n' + overlap = n + size), ← List.drop_drop]
        exact List.take_append_drop size (t.drop n)
      · intro c hc
        rw [List.dropLast_cons₂] at hc
        rcases List.mem_cons.mp hc with h | h
        · rw [h, hclen]
        · exact hlen c h
      · rw [chainShare, hshare, Bool.and_true, beq_iff_eq, hclen]
        rw [List.drop_take, List.drop_drop]
        rw [(by omega : size - (size - overlap) = overlap), ← hn']
        rw [List.take_take, min_eq_left hov.le]

lemma chunkLoop_nonpos_start_diverges (size overlap : ℕ) (t : List Char)
    (h1 : size ≤ overlap) (h2 : size < t.length) :
    ∀ fuel (start : ℤ), start ≤ 0 → ∀ acc, chunkLoop size overlap t start acc fuel = none := by
  intro fuel
  induction fuel with
  | zero => intros; rfl
  | succ fuel ih =>
    intro start hs acc
    have hsz : (size : ℤ) < (t.length : ℤ) := by exact_mod_cast h2
    have hso : (size : ℤ) ≤ (overlap : ℤ) := by exact_mod_cast h1
    rw [chunkLoop, if_pos (by omega), if_neg (by omega)]
    exact ih _ (by omega) _

lemma chunkLoop_succ_break (size overlap : ℕ) (t : List Char) (start : ℤ)
    (acc : List (List Char)) (fuel : ℕ)
    (hlt : start < (t.length : ℤ)) (hbr : (t.length : ℤ) ≤ start + (size : ℤ)) :
    chunkLoop size overlap t start acc (fuel + 1)
      = some (acc ++ [pySlice t start (start + (size : ℤ))]) := by
  rw [chunkLoop, if_pos hlt, if_pos hbr]

lemma chunkLoop_succ_cont (size overlap : ℕ) (t : List Char) (start : ℤ)
    (acc : List (List Char)) (fuel : ℕ)
    (hlt : start < (t.length : ℤ)) (hbr : start + (size : ℤ) < (t.length : ℤ)) :
    chunkLoop size overlap t start acc (fuel + 1)
      = chunkLoop size overlap t (start + ((size : ℤ) - (overlap : ℤ)))
          (acc ++ [pySlice t start (start + (size : ℤ))]) fuel := by
  rw [chunkLoop, if_pos hlt, if_neg (not_le.mpr hbr)]

/-- C2: for `0 ≤ overlap < size`, character-mode chunking of a text no
longer than `size` is the single chunk `[t]`; for a longer text the
loop terminates (fuel `t.length + 1` suffices), the chunks reassemble to
`t` gap-free (`glue`), every chunk but the last has length exactly
`size`, and consecutive chunks share exactly `overlap` characters
(`chainShare`). -/
theorem chunking_character_mode_coverage (size overlap : ℕ) (t : List Char)
    (hov : overlap < size) :
    (t.length ≤ size → chunk_by_characters size overlap t (t.length + 1) = some [t]) ∧
    (size < t.length → ∃ cs,
      chunk_by_characters size overlap t (t.length + 1) = some cs ∧ cs ≠ [] ∧
      glue overlap cs = t ∧ (∀ c ∈ cs.dropLast, c.length = size) ∧
      chainShare overlap cs = true) := by
  constructor
  · intro h
    rw [chunk_by_characters, if_pos h]
  · intro h
    rw [chunk_by_characters, if_neg (by omega)]
    obtain ⟨tl, heq, hglue, hlen, hshare⟩ :=
      chunkLoop_spec size overlap t hov (t.length + 1) 0 [] (by omega) (by omega)
    refine ⟨(t.drop 0).take size :: tl, ?_, by simp, ?_, hlen, hshare⟩
    · rw [Nat.cast_zero] at heq
      simpa using heq
    · simpa using hglue

/-- Witness for C2 at the spec's scenario configuration
(`size = 50`, `overlap = 10`, 120-character text). -/
theorem chunking_character_mode_coverage_witness :
    (10 < 50) ∧ (∃ cs,
      chunk_by_characters 50 10 (List.replicate 120 'a')
          ((List.replicate 120 'a').length + 1) = some cs ∧ cs ≠ [] ∧
      glue 10 cs = List.replicate 120 'a' ∧ (∀ c ∈ cs.dropLast, c.length = 50) ∧
      chainShare 10 cs = true) :=
  ⟨by norm_num,
   (chunking_character_mode_coverage 50 10 (List.replicate 120 'a') (by norm_num)).2 (by simp)⟩

/-- C4: `ChunkingService` has no guard for `overlap ≥ size`.  Instead of
rejecting the configuration, `_chunk_by_characters` never terminates on
any text longer than `size` (the window start never advances): the
fuelled loop returns `none` — fuel exhausted — for every fuel. -/
theorem chunking_missing_overlap_guard (size overlap : ℕ) (t : List Char)
    (h1 : size ≤ overlap) (h2 : size < t.length) :
    ∀ fuel, chunk_by_characters size overlap t fuel = none := by
  intro fuel
  rw [chunk_by_characters, if_neg (by omega)]
  exact chunkLoop_nonpos_start_diverges size overlap t h1 h2 fuel 0 le_rfl []

/-- Witness for C4: `chunk_size = 10`, `overlap = 10`, an 11-character
text; even 1000 loop iterations do not finish. -/
theorem chunking_missing_overlap_guard_witness :
    (10 ≤ 10) ∧ (10 < (List.replicate 11 'a').length) ∧
    chunk_by_characters 10 10 (List.replicate 11 'a') 1000 = none :=
  ⟨le_rfl, by simp, chunking_missing_overlap_guard 10 10 _ le_rfl (by simp) 1000⟩

/-- C3 counterexample: a 120-character text chunked with size 50 /
overlap 10 does **not** produce chunks of lengths `[50, 50, 20]` (the
spec's Scenario A expectation); the sliding window with step 40 visits
offsets 0, 40, 80 and so the final chunk has 40 characters. -/
theorem scenarioA_counterexample :
    ((chunk_by_characters 50 10 (List.replicate 120 'a') 121).map
      (fun cs => cs.map List.length)) ≠ some [50, 50, 20] := by decide

/-- C3 amended: for every 120-character text, chunking with size 50 /
overlap 10 returns exactly 3 chunks of lengths `[50, 50, 40]`, with 10
shared characters between each consecutive pair. -/
theorem scenarioA_amended (t : List Char) (h : t.length = 120) :
    (chunk_by_characters 50 10 t 121).map
        (fun cs => (cs.map List.length, chainShare 10 cs)) = some ([50, 50, 40], true) := by
  rw [chunk_by_characters, if_neg (by omega)]
  rw [show (121 : ℕ) = 120 + 1 from rfl,
    chunkLoop_succ_cont 50 10 t 0 [] 120 (by rw [h]; norm_num) (by rw [h]; norm_num)]
  norm_num
  rw [show (120 : ℕ) = 119 + 1 from rfl,
    chunkLoop_succ_cont 50 10 t 40 _ 119 (by rw [h]; norm_num) (by rw [h]; norm_num)]
  norm_num
  rw [show (119 : ℕ) = 118 + 1 from rfl,
    chunkLoop_succ_break 50 10 t 80 _ 118 (by rw [h]; norm_num) (by rw [h]; norm_num)]
  norm_num
  have e0 : pySlice t 0 50 = t.take 50 := by
    have := pySlice_window t 0 50 (by omega)
    norm_num at this
    simpa using this
  have e1 : pySlice t 40 90 = (t.drop 40).take 50 := by
    have := pySlice_window t 40 50 (by omega)
    norm_num at this
    exact this
  have e2 : pySlice t 80 130 = (t.drop 80).take 50 := by
    have := pySlice_window t 80 50 (by omega)
    norm_num at this
    exact this
  rw [e0, e1, e2]
  have l0 : (t.take 50).length = 50 := by simp [List.length_take, h]
  have l1 : ((t.drop 40).take 50).length = 50 := by simp [List.length_take, List.length_drop, h]
  have l2 : ((t.drop 80).take 50).length = 40 := by simp [List.length_take, List.length_drop, h]
  refine ⟨⟨l0, l1, l2⟩, ?_⟩
  rw [chainShare, chainShare, chainShare, l0, l1]
  rw [Bool.and_true, Bool.and_eq_true, beq_iff_eq, beq_iff_eq]
  constructor
  · rw [List.drop_take, List.take_take]
    norm_num
  · rw [List.drop_take, List.drop_drop, List.take_take]
    norm_num

/-- Witness for the amended C3 at a concrete 120-character text. -/
theorem scenarioA_amended_witness :
    ((List.replicate 120 'a').length = 120) ∧
    (chunk_by_characters 50 10 (List.replicate 120 'a') 121).map
        (fun cs => (cs.map List.length, chainShare 10 cs)) = some ([50, 50, 40], true) :=
  ⟨by simp, scenarioA_amended (List.replicate 120 'a') (by simp)⟩

/-! ### Citation-vocabulary lemmas (C1) -/

lemma mem_insertSorted (x : String) (l : List String) (a : String) :
    a ∈ insertSorted x l ↔ a = x ∨ a ∈ l := by
  induction l with
  | nil => simp [insertSorted]
  | cons y ys ih =>
    rw [insertSorted]
    split
    · simp
    · simp only [List.mem_cons, ih]
      tauto

lemma mem_sortStrings (l : List String) (a : String) : a ∈ sortStrings l ↔ a ∈ l := by
  induction l with
  | nil => simp [sortStrings]
  | cons y ys ih =>
    rw [sortStrings, List.foldr_cons, mem_insertSorted]
    rw [sortStrings] at ih
    simp [ih]

lemma dictSet_entry_sub {α : Type} (m : List (String × α)) (k : String) (v : α) :
    ∀ kv ∈ dictSet m k v, kv ∈ m ∨ kv = (k, v) := by
  intro kv hkv
  rw [dictSet] at hkv
  split at hkv
  · obtain ⟨kv0, h0, heq⟩ := List.mem_map.mp hkv
    split at heq
    · right
      exact heq.symm
    · left
      rw [← heq]
      exact h0
  · rcases List.mem_append.mp hkv with h | h
    · exact Or.inl h
    · right
      simpa using h

lemma dictSet_mem_fst {α : Type} (m : List (String × α)) (k : String) (v : α) :
    k ∈ (dictSet m k v).map Prod.fst := by
  rw [dictSet]
  split
  · next hany =>
    obtain ⟨kv0, h0, hbeq⟩ := List.any_eq_true.mp hany
    rw [List.map_map]
    refine List.mem_map.mpr ⟨kv0, h0, ?_⟩
    simp only [Function.comp_apply]
    rw [if_pos hbeq]
  · rw [List.map_append]
    simp

lemma dictSet_fst_mono {α : Type} (m : List (String × α)) (k : String) (v : α) :
    ∀ k' ∈ m.map Prod.fst, k' ∈ (dictSet m k v).map Prod.fst := by
  intro k' hk'
  obtain ⟨kv0, h0, hfst⟩ := List.mem_map.mp hk'
  rw [dictSet]
  split
  · rw [List.map_map]
    refine List.mem_map.mpr ⟨kv0, h0, ?_⟩
    simp only [Function.comp_apply]
    split
    · next hb =>
      simp only
      rw [← hfst]
      exact (beq_iff_eq.mp hb).symm
    · exact hfst
  · rw [List.map_append]
    exact List.mem_append.mpr (Or.inl hk')

/-- Invariants of the result-formatting loop: the output list extends
the accumulator; every dict entry was either already present or is the
`(paper_id, unique_id)` pair of some emitted result; dict keys only
grow; and every emitted result's `paper_id` is a key of the final
dict. -/
lemma processResults_spec :
    ∀ (pts : List ScoredPoint) (acc : List RResult) (keys : List (String × String))
      (results : List RResult) (d : List (String × String)),
      processResults pts acc keys = some (results, d) →
      ∃ newr, results = acc ++ newr ∧
        (∀ kv ∈ d, kv ∈ keys ∨ ∃ r ∈ newr, kv = (r.paper_id, r.unique_id)) ∧
        (∀ k ∈ keys.map Prod.fst, k ∈ d.map Prod.fst) ∧
        (∀ r ∈ newr, r.paper_id ∈ d.map Prod.fst) := by
  intro pts
  induction pts with
  | nil =>
    intro acc keys results d h
    rw [processResults] at h
    simp only [Option.some.injEq, Prod.mk.injEq] at h
    obtain ⟨rfl, rfl⟩ := h
    exact ⟨[], by simp, fun kv hkv => Or.inl hkv, fun k hk => hk, by simp⟩
  | cons p rest ih =>
    intro acc keys results d h
    rw [processResults] at h
    cases hf : formatResult p.score p.payload with
    | none =>
      rw [hf] at h
      cases h
    | some r =>
      rw [hf] at h
      obtain ⟨newr, hres, hent, hmono, hpid⟩ := ih _ _ _ _ h
      refine ⟨r :: newr, by rw [hres]; simp, ?_, ?_, ?_⟩
      · intro kv hkv
        rcases hent kv hkv with h1 | ⟨r', hr', heq⟩
        · rcases dictSet_entry_sub keys r.paper_id r.unique_id kv h1 with ha | hb
          · exact Or.inl ha
          · exact Or.inr ⟨r, by simp, hb⟩
        · exact Or.inr ⟨r', by simp [hr'], heq⟩
      · intro k hk
        exact hmono k (dictSet_fst_mono keys r.paper_id r.unique_id k hk)
      · intro r' hr'
        rcases List.mem_cons.mp hr' with rfl | hmem
        · exact hmono _ (dictSet_mem_fst keys r'.paper_id r'.unique_id)
        · exact hpid r' hmem

/-- C1 counterexample: on three retrievable points — one with an empty
stored `unique_id` and two sharing `paper_id` `"q"` under different
`unique_id`s — the prompt's valid-keys list is `["", "L"]` while the
distinct citation keys of the results are `["p", "K", "L"]`: the key
`"K"` of a result is not advertised, so the advertised set does not
equal the distinct result-key set. -/
theorem rag_valid_keys_counterexample :
    (processResults cexPts [] []).isSome = true ∧
    (processResults cexPts [] []).map (fun rk => rk.1.isEmpty) = some false ∧
    (processResults cexPts [] []).map (fun rk => rk.1.map citationKey)
      = some ["p", "K", "L"] ∧
    (processResults cexPts [] []).map (fun rk => validKeys rk.2) = some ["", "L"] ∧
    ("K" ∈ (["p", "K", "L"] : List String)) ∧ ("K" ∉ (["", "L"] : List String)) :=
  ⟨by decide, by decide, by decide, by decide, by decide, by decide⟩

/-- C1 amended: provided every retrieved result has a nonempty
`unique_id` and results sharing a `paper_id` agree on their
`unique_id` (both hold for a corpus in which each document was ingested
once, since `unique_id` is derived once per paper at ingestion and is
never empty), the set of citation keys advertised as valid in the
generation prompt equals exactly the set of distinct citation keys of
the results. -/
theorem citation_vocabulary_closure (pts : List ScoredPoint)
    (results : List RResult) (keys : List (String × String))
    (hp : processResults pts [] [] = some (results, keys))
    (hne : ∀ r ∈ results, r.unique_id ≠ "")
    (hfun : ∀ r ∈ results, ∀ r' ∈ results,
      r.paper_id = r'.paper_id → r.unique_id = r'.unique_id) :
    validKeys keys ⊆ results.map citationKey ∧
    results.map citationKey ⊆ validKeys keys := by
  obtain ⟨newr, hres, hent, _, hpid⟩ := processResults_spec pts [] [] results keys hp
  rw [List.nil_append] at hres
  subst hres
  have hck : ∀ r ∈ results, citationKey r = r.unique_id := fun r hr => by
    rw [citationKey, if_neg (hne r hr)]
  constructor
  · intro k hk
    rw [validKeys, mem_sortStrings, List.mem_dedup] at hk
    obtain ⟨kv, hkv, hsnd⟩ := List.mem_map.mp hk
    rcases hent kv hkv with h0 | ⟨r, hr, heq⟩
    · simp at h0
    · rw [heq] at hsnd
      exact List.mem_map.mpr ⟨r, hr, by rw [hck r hr]; exact hsnd⟩
  · intro k hk
    obtain ⟨r, hr, hkey⟩ := List.mem_map.mp hk
    obtain ⟨kv, hkv, hfst⟩ := List.mem_map.mp (hpid r hr)
    rcases hent kv hkv with h0 | ⟨r', hr', heq⟩
    · simp at h0
    · have hpp : r'.paper_id = r.paper_id := by
        rw [heq] at hfst
        exact hfst
      have huid : r'.unique_id = r.unique_id := hfun r' hr' r hr hpp
      rw [validKeys, mem_sortStrings, List.mem_dedup]
      refine List.mem_map.mpr ⟨kv, hkv, ?_⟩
      rw [heq]
      simpa [huid, hck r hr] using hkey

/-- Witness for the amended C1 at three well-behaved retrieved points
(nonempty `unique_id`s, one key per paper). -/
theorem citation_vocabulary_closure_witness :
    (processResults wPts [] []
        = some ([chunkResult 1 ⟨"p1", "Smith2020", "t1", .body, 1, none⟩,
                 chunkResult 1 ⟨"p2", "Jones2021", "t2", .body, 1, none⟩,
                 chunkResult 1 ⟨"p1", "Smith2020", "t3", .body, 1, none⟩],
                [("p1", "Smith2020"), ("p2", "Jones2021")])) ∧
    (validKeys [("p1", "Smith2020"), ("p2", "Jones2021")]
        ⊆ [chunkResult 1 ⟨"p1", "Smith2020", "t1", .body, 1, none⟩,
           chunkResult 1 ⟨"p2", "Jones2021", "t2", .body, 1, none⟩,
           chunkResult 1 ⟨"p1", "Smith2020", "t3", .body, 1, none⟩].map citationKey ∧
      [chunkResult 1 ⟨"p1", "Smith2020", "t1", .body, 1, none⟩,
       chunkResult 1 ⟨"p2", "Jones2021", "t2", .body, 1, none⟩,
       chunkResult 1 ⟨"p1", "Smith2020", "t3", .body, 1, none⟩].map citationKey
        ⊆ validKeys [("p1", "Smith2020"), ("p2", "Jones2021")]) :=
  ⟨by decide,
   citation_vocabulary_closure wPts _ _ (by decide) (by decide) (by decide)⟩

/-- C6: when retrieval returns zero results, `rag_query` returns an
empty answer and an empty citations map, never calls
`ollama.generate`, and raises no error — for every generator, context
cleaner, metadata source and query. -/
theorem empty_retrieval_no_generation (gen clean : String → String)
    (metaLookup : String → Option PaperMeta) (fa fb : PaperMeta → String)
    (q : String) (wt : ℤ) :
    rag_query_post [] gen clean metaLookup fa fb q wt =
      some { answer := "", results := [], citations := [], generateCalled := false } := rfl

/-! ### Hybrid-search fallback (C5) -/

/-- C5: under the system invariant that the collection record's
`search_type` agrees with the Qdrant collection's sparse schema, the
sparse query embedding is computed iff the caller requested hybrid and
the stored mode is hybrid; `QdrantService.search` issues the RRF fusion
query in exactly that case; and a hybrid request against a dense-only
collection silently falls back to a plain dense query (no error
path). -/
theorem hybrid_iff_requested_and_stored (req : Bool) (searchType : String)
    (hasSparse named : Bool) (sv : SparseVec)
    (hcons : searchType = "hybrid" ↔ hasSparse = true) :
    ((ragSparseDecision req searchType sv).1.isSome = (req && (searchType == "hybrid"))) ∧
    (searchMode (ragSparseDecision req searchType sv).2 hasSparse
        (ragSparseDecision req searchType sv).1 named = .fusion
      ↔ (req = true ∧ searchType = "hybrid")) ∧
    (¬ (req = true ∧ searchType = "hybrid") →
      searchMode (ragSparseDecision req searchType sv).2 hasSparse
          (ragSparseDecision req searchType sv).1 named
        = if named then .denseNamed else .denseUnnamed) := by
  by_cases hst : searchType = "hybrid"
  · have hsp : hasSparse = true := hcons.mp hst
    cases req <;> cases named <;> simp [ragSparseDecision, searchMode, hst, hsp]
  · have hb : (searchType == "hybrid") = false := by simpa using hst
    cases req <;> cases named <;> simp [ragSparseDecision, searchMode, hb, hst]

/-- Witness for C5: a hybrid request against a dense-only collection. -/
theorem hybrid_iff_requested_and_stored_witness :
    (("dense" : String) = "hybrid" ↔ false = true) ∧
    (((ragSparseDecision true "dense" ⟨[], []⟩).1.isSome = (true && ("dense" == "hybrid"))) ∧
     (searchMode (ragSparseDecision true "dense" ⟨[], []⟩).2 false
        (ragSparseDecision true "dense" ⟨[], []⟩).1 true = .fusion
      ↔ (true = true ∧ ("dense" : String) = "hybrid")) ∧
     (¬ (true = true ∧ ("dense" : String) = "hybrid") →
      searchMode (ragSparseDecision true "dense" ⟨[], []⟩).2 false
          (ragSparseDecision true "dense" ⟨[], []⟩).1 true
        = if true then SearchMode.denseNamed else SearchMode.denseUnnamed)) :=
  ⟨by decide, hybrid_iff_requested_and_stored true "dense" false true ⟨[], []⟩ (by decide)⟩

/-! ### Empty-query rejection (C7) -/

/-- C7: an empty or whitespace-only query text is rejected by both
`rag_query` and `query_collection` with HTTP 400
(`Query text cannot be empty`) before any backend call — in particular
no embedding call is made. -/
theorem empty_query_rejected (q : String) (coll : Option CollectionInfo)
    (h : pyStrip q = "") :
    ragPrelude q coll = (some (.badRequest "Query text cannot be empty"), []) ∧
    queryPrelude q coll = (some (.badRequest "Query text cannot be empty"), []) := by
  unfold ragPrelude queryPrelude
  rw [if_pos (Or.inr h)]
  exact ⟨rfl, rfl⟩

/-- Witness for C7 at a whitespace-only query. -/
theorem empty_query_rejected_witness :
    pyStrip "   " = "" ∧
    (ragPrelude "   " none = (some (.badRequest "Query text cannot be empty"), []) ∧
     queryPrelude "   " none = (some (.badRequest "Query text cannot be empty"), [])) :=
  ⟨by decide, empty_query_rejected "   " none (by decide)⟩

/-! ### Batch embedding order (C8) -/

lemma foldl_append_map {α β : Type} (f : α → β) :
    ∀ (l : List α) (acc : List β), l.foldl (fun a t => a ++ [f t]) acc = acc ++ l.map f := by
  intro l
  induction l with
  | nil => simp
  | cons x xs ih =>
    intro acc
    rw [List.foldl_cons, ih]
    simp

/-- C8: `generate_embeddings_batch` returns exactly one vector per
input text, the vector at index `i` being the dense embedding of the
text at index `i` (it equals the element-wise map of
`generate_embedding`); hence the ingestion write path's
`zip(chunks, vectors)` pairs each chunk with the embedding of its own
text. -/
theorem batch_embedding_preserves_order (embed : String → List ℚ)
    (texts : List String) (chunks : List Chunk) :
    generate_embeddings_batch embed texts = texts.map embed ∧
    chunks.zip (generate_embeddings_batch embed (chunks.map Chunk.chunk_text))
      = chunks.map (fun c => (c, embed c.chunk_text)) := by
  constructor
  · rw [generate_embeddings_batch, foldl_append_map, List.nil_append]
  · rw [generate_embeddings_batch, foldl_append_map, List.nil_append, List.map_map]
    calc chunks.zip (chunks.map (embed ∘ Chunk.chunk_text))
        = (chunks.map id).zip (chunks.map (embed ∘ Chunk.chunk_text)) := by rw [List.map_id]
      _ = chunks.map (fun c => (c, embed c.chunk_text)) := List.zip_map' id _ chunks

/-! ### Upsert identity and payload (C9, C10) -/

lemma upsertPointsAux_mem (named : Bool) (sparse : Option (List SparseVec))
    (ids : List String) :
    ∀ (l : List (Chunk × List ℚ)) (i : ℕ) (p : Point),
      p ∈ upsertPointsAux named sparse ids i l →
      ∃ cv ∈ l, ∃ j, p = mkUpsertPoint named sparse ids j cv := by
  intro l
  induction l with
  | nil =>
    intro i p h
    simp [upsertPointsAux] at h
  | cons cv rest ih =>
    intro i p h
    rw [upsertPointsAux] at h
    rcases List.mem_cons.mp h with rfl | hm
    · exact ⟨cv, by simp, i, rfl⟩
    · obtain ⟨cv', hcv', j, hj⟩ := ih (i + 1) p hm
      exact ⟨cv', by simp [hcv'], j, hj⟩

lemma formatResult_chunkPayload (score : ℚ) (c : Chunk) :
    formatResult score (chunkPayload c) = some (chunkResult score c) := rfl

/-- C9: `upsert_chunks` assigns each stored point a fresh opaque id
(`uuid.uuid4()`, modelled by the id supply) that does not depend on
chunk content; upserting the same chunk content twice appends two
distinct retrievable points with identical payloads — no overwrite or
content dedup. -/
theorem upsert_fresh_identity (s : List Point) (named : Bool) (c : Chunk)
    (v : List ℚ) (i1 i2 : String)
    (h12 : i1 ≠ i2) (h1 : ∀ p ∈ s, p.id ≠ i1) (h2 : ∀ p ∈ s, p.id ≠ i2) :
    ∃ p1 p2 : Point,
      upsert_chunks named [c] [v] none [i2]
          (upsert_chunks named [c] [v] none [i1] s) = s ++ [p1, p2] ∧
      p1.id = i1 ∧ p2.id = i2 ∧ p1.id ≠ p2.id ∧ p1.payload = p2.payload ∧
      p1.payload = chunkPayload c ∧
      (s ++ [p1, p2]).length = s.length + 2 := by
  refine ⟨mkUpsertPoint named none [i1] 0 (c, v), mkUpsertPoint named none [i2] 0 (c, v),
    ?_, rfl, rfl, h12, rfl, rfl, by simp⟩
  have hid1 : (mkUpsertPoint named none [i1] 0 (c, v)).id = i1 := rfl
  have hid2 : (mkUpsertPoint named none [i2] 0 (c, v)).id = i2 := rfl
  have ha1 : s.any (fun q => q.id == (mkUpsertPoint named none [i1] 0 (c, v)).id) = false := by
    rw [List.any_eq_false]
    intro q hq
    simp only [hid1, beq_iff_eq]
    exact h1 q hq
  have step1 : upsert_chunks named [c] [v] none [i1] s
      = s ++ [mkUpsertPoint named none [i1] 0 (c, v)] := by
    rw [upsert_chunks, upsertPoints]
    show clientUpsert s [mkUpsertPoint named none [i1] 0 (c, v)] = _
    rw [clientUpsert, List.foldl_cons, List.foldl_nil]
    rw [if_neg (by rw [ha1]; simp)]
  rw [step1]
  have ha2 : (s ++ [mkUpsertPoint named none [i1] 0 (c, v)]).any
      (fun q => q.id == (mkUpsertPoint named none [i2] 0 (c, v)).id) = false := by
    rw [List.any_eq_false]
    intro q hq
    simp only [hid2, beq_iff_eq]
    rcases List.mem_append.mp hq with hmem | hmem
    · exact h2 q hmem
    · rw [List.mem_singleton.mp hmem, hid1]
      exact h12
  rw [upsert_chunks, upsertPoints]
  show clientUpsert _ [mkUpsertPoint named none [i2] 0 (c, v)] = _
  rw [clientUpsert, List.foldl_cons, List.foldl_nil]
  rw [if_neg (by rw [ha2]; simp), List.append_assoc]
  rfl

/-- Witness for C9: the same chunk upserted twice into an empty store
under two fresh ids. -/
theorem upsert_fresh_identity_witness :
    (("a" : String) ≠ "b") ∧ (∀ p ∈ ([] : List Point), p.id ≠ "a") ∧
    (∀ p ∈ ([] : List Point), p.id ≠ "b") ∧
    (∃ p1 p2 : Point,
      upsert_chunks true [⟨"p", "U", "t", .body, 1, none⟩] [[]] none ["b"]
          (upsert_chunks true [⟨"p", "U", "t", .body, 1, none⟩] [[]] none ["a"] [])
        = [] ++ [p1, p2] ∧
      p1.id = "a" ∧ p2.id = "b" ∧ p1.id ≠ p2.id ∧ p1.payload = p2.payload ∧
      p1.payload = chunkPayload ⟨"p", "U", "t", .body, 1, none⟩ ∧
      (([] : List Point) ++ [p1, p2]).length = ([] : List Point).length + 2) :=
  ⟨by decide, by simp, by simp,
   upsert_fresh_identity [] true ⟨"p", "U", "t", .body, 1, none⟩ [] "a" "b"
     (by decide) (by simp) (by simp)⟩

/-- C10: every point written by the upsert path carries the payload of
one of the chunks — all six fields `paper_id`, `unique_id`,
`chunk_text`, `chunk_type`, `page_number`, `metadata` present, with
`metadata` defaulting to the empty map — so the read-path formatting
(shared by `rag_query` and `query_collection`) succeeds on every point
the system itself stored. -/
theorem upsert_payload_complete (named : Bool) (chunks : List Chunk)
    (vectors : List (List ℚ)) (sparse : Option (List SparseVec)) (ids : List String)
    (p : Point) (hp : p ∈ upsertPoints named chunks vectors sparse ids) :
    ∃ c ∈ chunks, p.payload = chunkPayload c ∧
      ∀ score : ℚ, formatResult score p.payload = some (chunkResult score c) := by
  obtain ⟨cv, hcv, j, rfl⟩ := upsertPointsAux_mem named sparse ids _ 0 p hp
  have hc : cv.1 ∈ chunks := (List.of_mem_zip hcv).1
  exact ⟨cv.1, hc, rfl, fun score => formatResult_chunkPayload score cv.1⟩

/-- Witness for C10 at a one-chunk upsert. -/
theorem upsert_payload_complete_witness :
    (mkUpsertPoint true none ["x"] 0 (⟨"p", "U", "t", .body, 1, none⟩, [])
        ∈ upsertPoints true [⟨"p", "U", "t", .body, 1, none⟩] [[]] none ["x"]) ∧
    (∃ c ∈ ([⟨"p", "U", "t", .body, 1, none⟩] : List Chunk),
      (mkUpsertPoint true none ["x"] 0 (⟨"p", "U", "t", .body, 1, none⟩, [])).payload
          = chunkPayload c ∧
      ∀ score : ℚ,
        formatResult score
            (mkUpsertPoint true none ["x"] 0 (⟨"p", "U", "t", .body, 1, none⟩, [])).payload
          = some (chunkResult score c)) :=
  ⟨by decide,
   upsert_payload_complete true [⟨"p", "U", "t", .body, 1, none⟩] [[]] none ["x"] _ (by decide)⟩

end PragAI
